import Mathlib

/-!
Shallow embedding of `lago/lago_ansible.py` (class `LagoAnsible`):
the path resolver `get_key`, the inventory builder `get_inventory`,
the INI renderer `get_inventory_str` and the temp-file context manager
`get_inventory_temp_file`, together with proofs about them.

Python values reachable from a VM `spec` are modelled by the inductive
type `Value` (JSON/YAML-like: `None`, integers, strings, lists and
string-keyed dicts).  Python exceptions are modelled by `Except PyErr`:
`get_key` wraps its subscript step in `try ... except (KeyError,
IndexError)`, so those two exception classes are converted to a `None`
result while any other exception (notably `TypeError`, raised when the
current value does not support the subscript) propagates.
-/

namespace Lago

/-- Python values occurring in a VM `spec` nested structure:
`None`, `int`, `str`, `list`, and string-keyed `dict`
(modelled as an association list in insertion order). -/
inductive Value where
  | null : Value
  | int (n : Int) : Value
  | str (s : String) : Value
  | list (xs : List Value) : Value
  | dict (kvs : List (String × Value)) : Value
deriving Repr

/-- The Python exceptions relevant to `get_key`'s subscript expression
`current_value[current_key]`. -/
inductive PyErr where
  | keyError : PyErr
  | indexError : PyErr
  | typeError : PyErr
deriving Repr, DecidableEq

/-- A subscript as used by `get_key`: the segment after the optional
`int()` conversion — an integer if the conversion succeeded, otherwise
the original string. -/
inductive PyKey where
  | int (n : Int) : PyKey
  | str (s : String) : PyKey
deriving Repr, DecidableEq

/-- Base-10 digit run, as accepted by Python `int()` after sign/space
stripping: nonempty, all decimal digits. -/
def parseDigits (cs : List Char) : Option Nat :=
  if cs ≠ [] ∧ cs.all Char.isDigit then
    Option.some (cs.foldl (fun a c => a * 10 + (c.toNat - 48)) 0)
  else
    Option.none

/-- Python `int(s)` on a string: strip surrounding whitespace, allow one
leading sign, then a nonempty run of decimal digits; `Option.none` models
the `ValueError` that `get_key` catches and ignores. -/
def pyIntParse (s : String) : Option Int :=
  let cs := ((s.data.dropWhile Char.isWhitespace).reverse.dropWhile Char.isWhitespace).reverse
  match cs with
  | '-' :: rest => (parseDigits rest).map (fun n => -(n : Int))
  | '+' :: rest => (parseDigits rest).map (fun n => (n : Int))
  | _ => (parseDigits cs).map (fun n => (n : Int))

/-- Python sequence indexing `xs[n]`: a negative index counts from the
end (`n + len(xs)`); anything outside the range raises `IndexError`
(here: `Option.none`). -/
def pyListGet {α : Type} (xs : List α) (n : Int) : Option α :=
  let i := if n < 0 then n + xs.length else n
  if h : 0 ≤ i ∧ i.toNat < xs.length then Option.some (xs.get ⟨i.toNat, h.2⟩)
  else Option.none

/-- The subscript expression `current_value[current_key]` of `get_key`:
dict lookup by string key (`KeyError` when absent, and an integer
subscript into a string-keyed dict is also a `KeyError`), list and
string indexing by integer (`IndexError` out of range), and `TypeError`
in every remaining combination (scalar values are not subscriptable;
lists and strings reject string subscripts). -/
def pyGetItem (v : Value) (k : PyKey) : Except PyErr Value :=
  match v, k with
  | Value.dict kvs, PyKey.str s =>
    match kvs.lookup s with
    | Option.some w => Except.ok w
    | Option.none => Except.error PyErr.keyError
  | Value.dict _, PyKey.int _ => Except.error PyErr.keyError
  | Value.list xs, PyKey.int n =>
    match pyListGet xs n with
    | Option.some w => Except.ok w
    | Option.none => Except.error PyErr.indexError
  | Value.list _, PyKey.str _ => Except.error PyErr.typeError
  | Value.str s, PyKey.int n =>
    match pyListGet s.data n with
    | Option.some c => Except.ok (Value.str (String.singleton c))
    | Option.none => Except.error PyErr.indexError
  | Value.str _, PyKey.str _ => Except.error PyErr.typeError
  | Value.null, _ => Except.error PyErr.typeError
  | Value.int _, _ => Except.error PyErr.typeError

/-- The `try: current_key = int(current_key) except ValueError: pass`
step of `get_key`: a segment that parses as an integer becomes an
integer subscript, any other segment stays a string key. -/
def segToKey (seg : String) : PyKey :=
  match pyIntParse seg with
  | Option.some n => PyKey.int n
  | Option.none => PyKey.str seg

/-- The `while path:` loop of `get_key`: pop the next segment, try
`int()` on it, subscript the current value, turning `KeyError` and
`IndexError` into a `None` result and letting other exceptions
propagate. -/
def walkPath : List String → Value → Except PyErr Value
  | [], v => Except.ok v
  | seg :: rest, v =>
    match pyGetItem v (segToKey seg) with
    | Except.ok v2 => walkPath rest v2
    | Except.error PyErr.keyError => Except.ok Value.null
    | Except.error PyErr.indexError => Except.ok Value.null
    | Except.error e => Except.error e

/-- Python `s.split(sep)` for a one-character separator: split the
character list at each occurrence of `sep`; the result is never empty
(`''.split(sep) == ['']`). -/
def pySplit (s : String) (sep : Char) : List String :=
  (s.data.splitOn sep).map (fun cs => String.mk cs)

/-- `LagoAnsible.get_key(key, data_structure)`: return `data_structure`
for the path `"/"`; otherwise split the path on `'/'`, drop a leading
empty segment (`path[0] or path.pop(0)`), and walk the structure. -/
def get_key (key : String) (data_structure : Value) : Except PyErr Value :=
  if key = "/" then Except.ok data_structure
  else
    let path := pySplit key '/'
    let path := match path with
      | [] => []
      | p :: rest => if p = "" then rest else p :: rest
    walkPath path data_structure


/-! ### The inventory builder -/

mutual

/-- Python `repr` of a `Value`, as used when a value is interpolated
into a format string from inside a container: `None`, decimal integers,
quoted strings, bracketed lists and braced dicts.  Simplified on corner
inputs: escape sequences and quote selection inside nested strings are
not modelled, and dict items render in association-list order. -/
def pyRepr : Value → String
  | Value.null => "None"
  | Value.int n => toString n
  | Value.str s => "'" ++ s ++ "'"
  | Value.list xs => "[" ++ pyReprList xs ++ "]"
  | Value.dict kvs => "\x7b" ++ pyReprDict kvs ++ "\x7d"

/-- Comma-separated `repr`s of the elements of a list. -/
def pyReprList : List Value → String
  | [] => ""
  | [v] => pyRepr v
  | v :: vs => pyRepr v ++ ", " ++ pyReprList vs

/-- Comma-separated `'key': repr(value)` items of a dict. -/
def pyReprDict : List (String × Value) → String
  | [] => ""
  | [(k, v)] => "'" ++ k ++ "': " ++ pyRepr v
  | (k, v) :: kvs => "'" ++ k ++ "': " ++ pyRepr v ++ ", " ++ pyReprDict kvs

end

/-- Python `str(v)`, as applied by `'{}={}'.format(key, value)`:
like `repr` except that a string formats as its own characters. -/
def pyStr : Value → String
  | Value.str s => s
  | v => pyRepr v

/-- The group identifier `'{}={}'.format(key, value)` built by
`get_inventory`. -/
def formatGroup (key : String) (value : Value) : String :=
  key ++ "=" ++ pyStr value

/-- A VM record as consumed by `LagoAnsible`: its `name()`, its `ip()`
and its `spec` attribute tree. -/
structure VM where
  name : String
  ip : String
  spec : Value

/-- The wrapped prefix: `get_vms().values()` in iteration order, and
`paths.ssh_id_rsa()`. -/
structure LagoPrefix where
  vms : List VM
  ssh_id_rsa : String

/-- `LagoAnsible._generate_entry(vm)`: the host entry
`'{name} ansible_host={ip} ansible_ssh_private_key_file={key}'`. -/
def generate_entry (p : LagoPrefix) (vm : VM) : String :=
  vm.name ++ " ansible_host=" ++ vm.ip ++ " ansible_ssh_private_key_file=" ++ p.ssh_id_rsa

/-- The inventory dict of `get_inventory`: group identifier → list of
host entries.  The `defaultdict(list)` is modelled as an association
list kept in insertion order; note that a real CPython 2.7 dict
iterates in hash-table slot order, not insertion order, so statements
about the *order* of groups are statements about this model, not about
the interpreter (see `get_inventory_str_group_order_observable`). -/
abbrev Inventory := List (String × List String)

/-- `inventory[g].append(e)` on a `defaultdict(list)`: append to the
existing group, or create the group at the end. -/
def invAppend (inv : Inventory) (g e : String) : Inventory :=
  if inv.any (fun gh => gh.1 == g) then
    inv.map (fun gh => if gh.1 == g then (gh.1, gh.2 ++ [e]) else gh)
  else
    inv ++ [(g, [e])]

/-- The default grouping keys of `get_inventory`. -/
def defaultKeys : List String := ["vm-type", "groups", "vm-provider"]

/-- `keys = keys or ['vm-type', 'groups', 'vm-provider']`: `None` and
the empty list are falsy, any nonempty list is kept. -/
def effectiveKeys : Option (List String) → List String
  | Option.none => defaultKeys
  | Option.some [] => defaultKeys
  | Option.some ks => ks

/-- `LagoAnsible.get_inventory(keys)`: for each VM in order and each
grouping key in order, resolve the key against the VM spec; skip on
`None`, fan out over the elements of a list value, and otherwise append
the host entry to the single group `'{key}={value}'`.  A `TypeError`
escaping `get_key` propagates (hence `Except`). -/
def get_inventory (p : LagoPrefix) (keys : Option (List String)) : Except PyErr Inventory :=
  let ks := effectiveKeys keys
  p.vms.foldlM
    (fun inv vm =>
      let entry := generate_entry p vm
      ks.foldlM
        (fun inv2 key =>
          match get_key key vm.spec with
          | Except.error e => Except.error e
          | Except.ok Value.null => Except.ok inv2
          | Except.ok (Value.list vs) =>
            Except.ok (vs.foldl (fun acc sv => invAppend acc (formatGroup key sv) entry) inv2)
          | Except.ok v => Except.ok (invAppend inv2 (formatGroup key v) entry))
        inv)
    ([] : Inventory)

/-- Lexicographic `≤` on character lists by code point, the order
Python uses to compare strings. -/
def charListLe : List Char → List Char → Bool
  | [], _ => true
  | _ :: _, [] => false
  | a :: as, b :: bs =>
    if a.toNat < b.toNat then true
    else if b.toNat < a.toNat then false
    else charListLe as bs

/-- Lexicographic `≤` on strings, as a proposition. -/
def pyStrLe (a b : String) : Prop :=
  charListLe a.data b.data = true

instance instDecidablePyStrLe (a b : String) : Decidable (pyStrLe a b) := by
  unfold pyStrLe
  infer_instance

/-- Python `sorted` on a list of strings: a stable sort by the
lexicographic order (insertion sort is such a sort, and on a linear
order any two stable sorts agree elementwise). -/
def pySorted (hosts : List String) : List String :=
  List.insertionSort pyStrLe hosts

/-- `LagoAnsible.get_inventory_str(keys)`: a `[group]` header line per
group in `inventory.viewitems()` order, followed by that group's host
entries in sorted order; all lines joined with a single newline.
`viewitems()` order is hash-table slot order on CPython 2.7; here it is
the model's insertion order. -/
def get_inventory_str (p : LagoPrefix) (keys : Option (List String)) : Except PyErr String :=
  match get_inventory p keys with
  | Except.error e => Except.error e
  | Except.ok inventory =>
    let lines := inventory.foldl
      (fun ls gh => (ls ++ ["[" ++ gh.1 ++ "]"]) ++ pySorted gh.2)
      ([] : List String)
    Except.ok (String.intercalate "\n" lines)

/-- The line list of `get_inventory_str` for one inventory: a header
per group followed by that group's hosts, sorted. -/
def renderLines (inv : Inventory) : List String :=
  inv.flatMap (fun gh => ("[" ++ gh.1 ++ "]") :: pySorted gh.2)

/-! ### The temp-file context manager -/

/-- The state of the temporary file created by
`tempfile.NamedTemporaryFile(mode='r+t')`: its content, the position of
the read/write cursor (in characters), whether all written data has
been flushed, and whether the file has been closed (a
`NamedTemporaryFile` is deleted when it is closed). -/
structure TempFile where
  content : String
  cursor : Nat
  flushed : Bool
  closed : Bool
deriving Repr, DecidableEq

/-- `f.write(s)`: overwrite at the cursor, advance the cursor past the
written text; the data is buffered, not yet flushed. -/
def fileWrite (f : TempFile) (s : String) : TempFile :=
  { f with
    content := String.mk
      (f.content.data.take f.cursor ++ s.data ++ f.content.data.drop (f.cursor + s.data.length))
    cursor := f.cursor + s.data.length
    flushed := false }

/-- `f.flush()`. -/
def fileFlush (f : TempFile) : TempFile :=
  { f with flushed := true }

/-- `f.seek(n)`. -/
def fileSeek (f : TempFile) (n : Nat) : TempFile :=
  { f with cursor := n }

/-- `f.read()`: the content from the cursor to the end of file. -/
def fileRead (f : TempFile) : String :=
  String.mk (f.content.data.drop f.cursor)

/-- How the caller\'s `with`-body finishes: it either completes
normally or raises an exception. -/
inductive BodyExit where
  | normal : BodyExit
  | exc : BodyExit
deriving Repr, DecidableEq

/-- The acquire half of `LagoAnsible.get_inventory_temp_file(keys)`, up
to the `yield`: create the temp file, render the inventory, `write` it,
`flush`, and `seek(0)`.  The resulting `TempFile` is what the `with`
statement binds for the caller. -/
def get_inventory_temp_file_enter (p : LagoPrefix) (keys : Option (List String)) :
    Except PyErr TempFile :=
  match get_inventory_str p keys with
  | Except.error e => Except.error e
  | Except.ok inventory =>
    let temp_file : TempFile := { content := "", cursor := 0, flushed := true, closed := false }
    Except.ok (fileSeek (fileFlush (fileWrite temp_file inventory)) 0)

/-- The release half of `get_inventory_temp_file`, after the `yield`.
Under `@contextlib.contextmanager`, when the `with`-body completes
normally the generator is resumed after the `yield` and runs
`temp_file.close()`; when the body raises, the exception is thrown into
the generator at the `yield`, and since the `yield` is not wrapped in
`try`/`finally` the exception propagates without `temp_file.close()`
ever running. -/
def get_inventory_temp_file_exit (f : TempFile) : BodyExit → TempFile
  | BodyExit.normal => { f with closed := true }
  | BodyExit.exc => f

/-- A whole run of `with get_inventory_temp_file(keys) as f: body`:
returns the file as yielded to the body together with its state after
the scope exits in the given way. -/
def get_inventory_temp_file_scope (p : LagoPrefix) (keys : Option (List String))
    (exit : BodyExit) : Except PyErr (TempFile × TempFile) :=
  match get_inventory_temp_file_enter p keys with
  | Except.error e => Except.error e
  | Except.ok f => Except.ok (f, get_inventory_temp_file_exit f exit)

/-! ### Round-tripping the INI text -/

/-- An INI group header line: `[` first, `]` last, length at least 2. -/
def isHeader (l : String) : Bool :=
  decide (l.data.head? = Option.some '[') && decide (l.data.getLast? = Option.some ']') &&
    decide (2 ≤ l.data.length)

/-- The group name inside a header line: strip the surrounding
brackets. -/
def headerName (l : String) : String :=
  String.mk ((l.data.drop 1).dropLast)

/-- Re-parse a line list as an INI inventory: a header line opens a
group, a non-header line is a host entry of the currently open group
(lines before any header are ignored). -/
def parseLinesAux : List String → Option (String × List String) → List (String × List String)
  | [], Option.none => []
  | [], Option.some gh => [gh]
  | l :: rest, Option.none =>
    if isHeader l then parseLinesAux rest (Option.some (headerName l, []))
    else parseLinesAux rest Option.none
  | l :: rest, Option.some (g, hs) =>
    if isHeader l then (g, hs) :: parseLinesAux rest (Option.some (headerName l, []))
    else parseLinesAux rest (Option.some (g, hs ++ [l]))

/-- Re-parse an INI text: split into lines, then group them. -/
def parseInventory (s : String) : List (String × List String) :=
  parseLinesAux ((s.data.splitOn '\n').map (fun cs => String.mk cs)) Option.none

/-- A VM whose grouping value smuggles a `]` and a newline into the
group name. -/
def vmBad : VM := { name := "n", ip := "i", spec := Value.dict [("a", Value.str "x]\n[y")] }

/-- The one-VM prefix around `vmBad`. -/
def pBad : LagoPrefix := { vms := [vmBad], ssh_id_rsa := "k" }

/-! ### Example inputs used by the concrete witnesses -/

/-- A VM whose spec carries a scalar `vm-type`. -/
def vmEx : VM := { name := "vm1", ip := "1.1.1.1", spec := Value.dict [("vm-type", Value.str "x")] }

/-- A VM whose spec carries a list-valued `vm-type`. -/
def vmEx2 : VM :=
  { name := "vm2", ip := "1.1.1.2", spec := Value.dict [("vm-type", Value.list [Value.str "x", Value.str "y"])] }

/-- A two-VM prefix. -/
def pEx : LagoPrefix := { vms := [vmEx, vmEx2], ssh_id_rsa := "id" }

/-- A VM producing the two groups `vm-type=a` and `vm-type=b`, in that
build order.  On CPython 2.7 (default build, hash randomization off)
the group dict has 8 slots and `hash('vm-type=a') & 7 = 7` while
`hash('vm-type=b') & 7 = 4`, so `viewitems()` yields `vm-type=b`
first — the reverse of build order. -/
def vmOrd : VM :=
  { name := "vm1", ip := "1.1.1.1",
    spec := Value.dict [("vm-type", Value.list [Value.str "a", Value.str "b"])] }

/-- The one-VM prefix around `vmOrd`. -/
def pOrd : LagoPrefix := { vms := [vmOrd], ssh_id_rsa := "id" }

/-! ### The path resolver: theorems -/

/-- Python `l[-1]` on a nonempty list is its last element. -/
lemma pyListGet_neg_one {α : Type} (xs : List α) (h : xs ≠ []) :
    pyListGet xs (-1) = Option.some (xs.getLast h) := by
  have hlen : 0 < xs.length := List.length_pos.mpr h
  have hcond : (0 : Int) ≤ -1 + xs.length ∧ ((-1 : Int) + xs.length).toNat < xs.length := by
    omega
  have h1 : ((-1 : Int) + xs.length).toNat = xs.length - 1 := by omega
  simp only [pyListGet, if_pos (show (-1 : Int) < 0 by decide)]
  rw [dif_pos hcond]
  simp only [List.get_eq_getElem, h1]
  rw [List.getLast_eq_getElem]

/-- C4: for every nested structure `d`, `get_key "/" d` returns `d`
unchanged, and `get_key "" d` behaves identically (the empty path
denotes the root). -/
theorem get_key_root_and_empty (d : Value) :
    get_key "/" d = Except.ok d ∧ get_key "" d = Except.ok d :=
  ⟨rfl, rfl⟩

/-- C6: a numeric-looking path segment is used as an integer subscript;
against a dict (string-typed keys) that lookup raises `KeyError`, which
`get_key` converts to `None` — with no retry of the segment as a string
key, even when that string key is present in the dict. -/
theorem get_key_numeric_segment_no_fallback (kvs : List (String × Value)) (v : Value)
    (h : ("1", v) ∈ kvs) :
    get_key "1" (Value.dict kvs) = Except.ok Value.null :=
  rfl

/-- Witness for `get_key_numeric_segment_no_fallback`: the dict
`{'1': 7}` holds the string key `'1'`, yet resolving the path `"1"`
yields `None`. -/
theorem get_key_numeric_segment_no_fallback_witness :
    get_key "1" (Value.dict [("1", Value.int 7)]) = Except.ok Value.null :=
  get_key_numeric_segment_no_fallback [("1", Value.int 7)] (Value.int 7) (List.Mem.head _)

/-- C10: a segment parsing as `-1` applied to a nonempty list resolves
to the last element (Python negative indexing), not to `None`. -/
theorem get_key_negative_index (xs : List Value) (h : xs ≠ []) :
    get_key "-1" (Value.list xs) = Except.ok (xs.getLast h) := by
  have hstep : pyGetItem (Value.list xs) (segToKey "-1") = Except.ok (xs.getLast h) := by
    have hk : segToKey "-1" = PyKey.int (-1) := rfl
    rw [hk]
    simp only [pyGetItem, pyListGet_neg_one xs h]
  show walkPath ["-1"] (Value.list xs) = Except.ok (xs.getLast h)
  simp only [walkPath, hstep]

/-- Witness for `get_key_negative_index`: `get_key "-1" [1, 2] = 2`. -/
theorem get_key_negative_index_witness :
    get_key "-1" (Value.list [Value.int 1, Value.int 2]) = Except.ok (Value.int 2) :=
  get_key_negative_index [Value.int 1, Value.int 2] (List.cons_ne_nil _ _)

/-- C1 counterexample: resolving the path `"a/b"` against
`{'a': 5}` hits the non-indexable intermediate value `5`; the resulting
`TypeError` is not in the `except (KeyError, IndexError)` clause, so
`get_key` raises instead of returning `None`. -/
theorem get_key_raises_on_scalar_intermediate :
    get_key "a/b" (Value.dict [("a", Value.int 5)]) = Except.error PyErr.typeError :=
  rfl

/-- C1 amended: `get_key` either returns a value (possibly `None`) or
raises `TypeError`; failures caused by an absent key or an
out-of-range index — the two spec examples included — yield `None`
rather than raising. -/
theorem get_key_total_up_to_type_error :
    (∀ (key : String) (d : Value),
        (∃ v, get_key key d = Except.ok v) ∨ get_key key d = Except.error PyErr.typeError) ∧
    get_key "a/0/b" (Value.dict [("a", Value.list [Value.dict [("b", Value.int 5)]])]) =
      Except.ok (Value.int 5) ∧
    get_key "a/5" (Value.dict [("a", Value.list [Value.int 1, Value.int 2])]) =
      Except.ok Value.null := by
  refine ⟨?_, rfl, rfl⟩
  intro key d
  have hwalk : ∀ (path : List String) (v : Value),
      (∃ w, walkPath path v = Except.ok w) ∨ walkPath path v = Except.error PyErr.typeError := by
    intro path
    induction path with
    | nil => exact fun v => Or.inl ⟨v, rfl⟩
    | cons seg rest ih =>
      intro v
      cases hp : pyGetItem v (segToKey seg) with
      | ok v2 =>
        simp only [walkPath, hp]
        exact ih v2
      | error e =>
        cases e with
        | keyError => simp [walkPath, hp]
        | indexError => simp [walkPath, hp]
        | typeError => simp [walkPath, hp]
  by_cases hk : key = "/"
  · rw [get_key, if_pos hk]
    exact Or.inl ⟨d, rfl⟩
  · rw [get_key, if_neg hk]
    exact hwalk _ d

/-! ### The inventory builder: theorems -/

/-- C7: an omitted (`None`) or empty `keys` argument defaults to the
grouping keys `['vm-type', 'groups', 'vm-provider']`, in that order,
in `get_inventory` and everything built on it. -/
theorem default_grouping_keys (p : LagoPrefix) :
    effectiveKeys Option.none = ["vm-type", "groups", "vm-provider"] ∧
    effectiveKeys (Option.some []) = ["vm-type", "groups", "vm-provider"] ∧
    get_inventory p Option.none = get_inventory p (Option.some ["vm-type", "groups", "vm-provider"]) ∧
    get_inventory p (Option.some []) = get_inventory p (Option.some ["vm-type", "groups", "vm-provider"]) ∧
    get_inventory_str p Option.none = get_inventory_str p (Option.some ["vm-type", "groups", "vm-provider"]) ∧
    get_inventory_temp_file_enter p Option.none =
      get_inventory_temp_file_enter p (Option.some ["vm-type", "groups", "vm-provider"]) :=
  ⟨rfl, rfl, rfl, rfl, rfl, rfl⟩

/-! ### The temp-file context manager: theorems -/

/-- C2: the temp file is closed (hence deleted) when the `with`-body
completes normally, but when the body raises, the exception thrown into
the generator at the `yield` skips `temp_file.close()`: the file is
left open on that exit path. -/
theorem temp_file_close_skipped_on_exception :
    get_inventory_temp_file_scope { vms := [], ssh_id_rsa := "key" } Option.none BodyExit.normal =
      Except.ok ({ content := "", cursor := 0, flushed := true, closed := false },
                 { content := "", cursor := 0, flushed := true, closed := true }) ∧
    get_inventory_temp_file_scope { vms := [], ssh_id_rsa := "key" } Option.none BodyExit.exc =
      Except.ok ({ content := "", cursor := 0, flushed := true, closed := false },
                 { content := "", cursor := 0, flushed := true, closed := false }) :=
  ⟨rfl, rfl⟩

/-- Rebuilding a string from its own characters is the identity. -/
lemma string_mk_data (s : String) : String.mk s.data = s := by
  cases s
  rfl

/-- C8: whenever `get_inventory_str` succeeds, the file handed to the
`with`-body holds exactly that string, flushed, with the read cursor at
the beginning, so `f.read()` inside the scope yields the INI text
exactly. -/
theorem temp_file_yields_inventory (p : LagoPrefix) (keys : Option (List String)) (s : String)
    (h : get_inventory_str p keys = Except.ok s) :
    get_inventory_temp_file_enter p keys =
      Except.ok { content := s, cursor := 0, flushed := true, closed := false } ∧
    fileRead { content := s, cursor := 0, flushed := true, closed := false } = s := by
  have hempty : ("" : String).data = [] := rfl
  constructor
  · simp only [get_inventory_temp_file_enter, h, fileWrite, fileFlush, fileSeek, hempty,
      List.take_nil, List.drop_nil, List.nil_append, List.append_nil, string_mk_data]
  · simp only [fileRead, List.drop_zero, string_mk_data]

/-- Witness for `temp_file_yields_inventory` at the two-VM prefix. -/
theorem temp_file_yields_inventory_witness :
    get_inventory_temp_file_enter pEx (Option.some ["vm-type"]) =
      Except.ok
        { content := "[vm-type=x]\nvm1 ansible_host=1.1.1.1 ansible_ssh_private_key_file=id\nvm2 ansible_host=1.1.1.2 ansible_ssh_private_key_file=id\n[vm-type=y]\nvm2 ansible_host=1.1.1.2 ansible_ssh_private_key_file=id",
          cursor := 0, flushed := true, closed := false } :=
  (temp_file_yields_inventory pEx (Option.some ["vm-type"])
    "[vm-type=x]\nvm1 ansible_host=1.1.1.1 ansible_ssh_private_key_file=id\nvm2 ansible_host=1.1.1.2 ansible_ssh_private_key_file=id\n[vm-type=y]\nvm2 ansible_host=1.1.1.2 ansible_ssh_private_key_file=id"
    rfl).1

/-- Bind on a successful `Except` computation just continues. -/
lemma except_ok_bind {ε α β : Type} (a : α) (f : α → Except ε β) :
    (Except.ok a >>= f : Except ε β) = f a :=
  rfl

/-- C3: grouping behaviour of `get_inventory` per VM and grouping key:
a `None` resolution contributes nothing (no group entry, no error, no
placeholder group); a list value appends the host entry to the group
`'{key}={element}'` for every element; any other value appends it to
the single group `'{key}={value}'`; and no deduplication is performed —
the same VM listed twice produces its entry twice in the group. -/
theorem get_inventory_grouping (vm : VM) (ssh key : String) :
    (get_key key vm.spec = Except.ok Value.null →
      get_inventory { vms := [vm], ssh_id_rsa := ssh } (Option.some [key]) = Except.ok []) ∧
    (∀ vs, get_key key vm.spec = Except.ok (Value.list vs) →
      get_inventory { vms := [vm], ssh_id_rsa := ssh } (Option.some [key]) =
        Except.ok (vs.foldl
          (fun acc sv => invAppend acc (formatGroup key sv)
            (generate_entry { vms := [vm], ssh_id_rsa := ssh } vm)) [])) ∧
    (∀ v, get_key key vm.spec = Except.ok v → v ≠ Value.null → (∀ ws, v ≠ Value.list ws) →
      get_inventory { vms := [vm], ssh_id_rsa := ssh } (Option.some [key]) =
        Except.ok [(formatGroup key v,
          [generate_entry { vms := [vm], ssh_id_rsa := ssh } vm])]) ∧
    (∀ v, get_key key vm.spec = Except.ok v → v ≠ Value.null → (∀ ws, v ≠ Value.list ws) →
      get_inventory { vms := [vm, vm], ssh_id_rsa := ssh } (Option.some [key]) =
        Except.ok [(formatGroup key v,
          [generate_entry { vms := [vm, vm], ssh_id_rsa := ssh } vm,
           generate_entry { vms := [vm, vm], ssh_id_rsa := ssh } vm])]) := by
  refine ⟨?_, ?_, ?_, ?_⟩
  · intro h
    simp [get_inventory, effectiveKeys, List.foldlM, h]
  · intro vs h
    simp [get_inventory, effectiveKeys, List.foldlM, h]
  · intro v h hnull hlist
    cases v with
    | null => exact absurd rfl hnull
    | list ws => exact absurd rfl (hlist ws)
    | int n => simp [get_inventory, effectiveKeys, List.foldlM, h, invAppend, except_ok_bind]
    | str s => simp [get_inventory, effectiveKeys, List.foldlM, h, invAppend, except_ok_bind]
    | dict kvs => simp [get_inventory, effectiveKeys, List.foldlM, h, invAppend, except_ok_bind]
  · intro v h hnull hlist
    cases v with
    | null => exact absurd rfl hnull
    | list ws => exact absurd rfl (hlist ws)
    | int n => simp [get_inventory, effectiveKeys, List.foldlM, h, invAppend, except_ok_bind]
    | str s => simp [get_inventory, effectiveKeys, List.foldlM, h, invAppend, except_ok_bind]
    | dict kvs => simp [get_inventory, effectiveKeys, List.foldlM, h, invAppend, except_ok_bind]

/-- Witness for `get_inventory_grouping`: scalar case at `vmEx`, and
no-dedup case at the prefix listing `vmEx` twice. -/
theorem get_inventory_grouping_witness :
    get_inventory { vms := [vmEx], ssh_id_rsa := "id" } (Option.some ["vm-type"]) =
      Except.ok [("vm-type=x", ["vm1 ansible_host=1.1.1.1 ansible_ssh_private_key_file=id"])] ∧
    get_inventory { vms := [vmEx, vmEx], ssh_id_rsa := "id" } (Option.some ["vm-type"]) =
      Except.ok [("vm-type=x",
        ["vm1 ansible_host=1.1.1.1 ansible_ssh_private_key_file=id",
         "vm1 ansible_host=1.1.1.1 ansible_ssh_private_key_file=id"])] :=
  ⟨(get_inventory_grouping vmEx "id" "vm-type").2.2.1 (Value.str "x") rfl
      (fun hcon => Value.noConfusion hcon) (fun ws hcon => Value.noConfusion hcon),
   (get_inventory_grouping vmEx "id" "vm-type").2.2.2 (Value.str "x") rfl
      (fun hcon => Value.noConfusion hcon) (fun ws hcon => Value.noConfusion hcon)⟩

/-! ### The INI renderer: theorems -/

/-- `charListLe` is total. -/
lemma charListLe_total : ∀ a b : List Char, charListLe a b = true ∨ charListLe b a = true := by
  intro a
  induction a with
  | nil => intro b; exact Or.inl rfl
  | cons x xs ih =>
    intro b
    cases b with
    | nil => exact Or.inr rfl
    | cons y ys =>
      by_cases hxy : x.toNat < y.toNat
      · left
        simp [charListLe, hxy]
      · by_cases hyx : y.toNat < x.toNat
        · right
          simp [charListLe, hyx]
        · cases ih ys with
          | inl h => left; simp [charListLe, hxy, hyx, h]
          | inr h => right; simp [charListLe, hxy, hyx, h]

/-- `charListLe` is transitive. -/
lemma charListLe_trans : ∀ a b c : List Char,
    charListLe a b = true → charListLe b c = true → charListLe a c = true := by
  intro a
  induction a with
  | nil => intro b c _ _; rfl
  | cons x xs ih =>
    intro b c hab hbc
    cases b with
    | nil => simp [charListLe] at hab
    | cons y ys =>
      cases c with
      | nil => simp [charListLe] at hbc
      | cons z zs =>
        simp only [charListLe] at hab hbc ⊢
        by_cases hxy : x.toNat < y.toNat
        · by_cases hyz : y.toNat < z.toNat
          · simp [show x.toNat < z.toNat by omega]
          · by_cases hzy : z.toNat < y.toNat
            · simp [charListLe] at hbc
              omega
            · simp [show x.toNat < z.toNat by omega]
        · by_cases hyx : y.toNat < x.toNat
          · simp [hxy, hyx] at hab
          · by_cases hyz : y.toNat < z.toNat
            · simp [show x.toNat < z.toNat by omega]
            · by_cases hzy : z.toNat < y.toNat
              · simp [hyz, hzy] at hbc
              · have hxz : ¬ x.toNat < z.toNat := by omega
                have hzx : ¬ z.toNat < x.toNat := by omega
                simp only [hxy, hyx, if_neg hxz, if_neg hzx, if_neg hyz, if_neg hzy,
                  if_false] at hab hbc ⊢
                exact ih ys zs hab hbc

instance : IsTotal String pyStrLe :=
  ⟨fun a b => charListLe_total a.data b.data⟩

instance : IsTrans String pyStrLe :=
  ⟨fun a b c hab hbc => charListLe_trans a.data b.data c.data hab hbc⟩

/-- The `lines` loop of `get_inventory_str`, as a `flatMap`. -/
lemma foldl_lines (inv : Inventory) (acc : List String) :
    inv.foldl (fun ls gh => (ls ++ ["[" ++ gh.1 ++ "]"]) ++ pySorted gh.2) acc
      = acc ++ renderLines inv := by
  induction inv generalizing acc with
  | nil => simp [renderLines]
  | cons gh rest ih =>
    simp only [List.foldl_cons, ih, renderLines, List.flatMap_cons]
    simp [List.append_assoc]

/-- `get_inventory_str` on a successful build renders `renderLines`
joined by newlines. -/
lemma get_inventory_str_ok (p : LagoPrefix) (keys : Option (List String)) (inv : Inventory)
    (h : get_inventory p keys = Except.ok inv) :
    get_inventory_str p keys = Except.ok (String.intercalate "\n" (renderLines inv)) := by
  simp only [get_inventory_str, h, foldl_lines, List.nil_append]

/-- Rendering shape relative to the model's inventory value: when the
build succeeds, the INI text is exactly the groups in the order of that
inventory value, each contributing its `[group]` header line followed
by its host entries sorted lexicographically (a permutation of the
group's entries), all joined by single newlines — no trailing newline
and no blank separator lines.  Which group order `viewitems()` gives
the real renderer is a property of the CPython 2.7 hash table, not of
this model. -/
theorem get_inventory_str_shape (p : LagoPrefix) (keys : Option (List String)) (inv : Inventory)
    (h : get_inventory p keys = Except.ok inv) :
    get_inventory_str p keys =
      Except.ok (String.intercalate "\n"
        (inv.flatMap (fun gh => ("[" ++ gh.1 ++ "]") :: pySorted gh.2))) ∧
    ∀ gh ∈ inv, (pySorted gh.2).Pairwise pyStrLe ∧ (pySorted gh.2).Perm gh.2 := by
  refine ⟨get_inventory_str_ok p keys inv h, ?_⟩
  intro gh _
  exact ⟨List.sorted_insertionSort pyStrLe gh.2, List.perm_insertionSort pyStrLe gh.2⟩

/-- Witness for `get_inventory_str_shape` at the two-VM prefix: `vm2`'s
entry sorts after `vm1`'s in the shared group. -/
theorem get_inventory_str_shape_witness :
    get_inventory_str pEx (Option.some ["vm-type"]) =
      Except.ok (String.intercalate "\n"
        (([("vm-type=x",
             ["vm1 ansible_host=1.1.1.1 ansible_ssh_private_key_file=id",
              "vm2 ansible_host=1.1.1.2 ansible_ssh_private_key_file=id"]),
           ("vm-type=y",
             ["vm2 ansible_host=1.1.1.2 ansible_ssh_private_key_file=id"])] :
           Inventory).flatMap (fun gh => ("[" ++ gh.1 ++ "]") :: pySorted gh.2))) :=
  (get_inventory_str_shape pEx (Option.some ["vm-type"])
    [("vm-type=x",
       ["vm1 ansible_host=1.1.1.1 ansible_ssh_private_key_file=id",
        "vm2 ansible_host=1.1.1.2 ansible_ssh_private_key_file=id"]),
     ("vm-type=y",
       ["vm2 ansible_host=1.1.1.2 ansible_ssh_private_key_file=id"])] rfl).1

/-- C5: `get_inventory` builds the groups of `vmOrd` in the order
`vm-type=a`, `vm-type=b`, and the rendered text observably depends on
the group iteration order (the two orders give different INI texts).
On CPython 2.7 `viewitems()` iterates the group dict in hash-table slot
order — `hash('vm-type=b') & 7 = 4` comes before
`hash('vm-type=a') & 7 = 7` — so the interpreter emits the
`[vm-type=b]` section first, not the build order the spec promises.
The first conjunct pins down the build order at the failing input; the
second shows the build-order text differs from the slot-order text. -/
theorem get_inventory_str_group_order_observable :
    get_inventory pOrd (Option.some ["vm-type"]) =
      Except.ok
        [("vm-type=a", ["vm1 ansible_host=1.1.1.1 ansible_ssh_private_key_file=id"]),
         ("vm-type=b", ["vm1 ansible_host=1.1.1.1 ansible_ssh_private_key_file=id"])] ∧
    String.intercalate "\n" (renderLines
        [("vm-type=a", ["vm1 ansible_host=1.1.1.1 ansible_ssh_private_key_file=id"]),
         ("vm-type=b", ["vm1 ansible_host=1.1.1.1 ansible_ssh_private_key_file=id"])]) ≠
      String.intercalate "\n" (renderLines
        [("vm-type=b", ["vm1 ansible_host=1.1.1.1 ansible_ssh_private_key_file=id"]),
         ("vm-type=a", ["vm1 ansible_host=1.1.1.1 ansible_ssh_private_key_file=id"])]) :=
  ⟨rfl, by decide⟩

/-! ### Round-tripping the INI text: theorems -/

/-- C9 counterexample: with a group value containing `]` plus a
newline, the rendered header line splits in two, and re-parsing the INI
text yields groups `a=x]` and `y` instead of the built group
`a=x]\n[y` — the round-trip does not recover the built mapping. -/
theorem inventory_roundtrip_counterexample :
    get_inventory pBad (Option.some ["a"]) =
      Except.ok [("a=x]\n[y", ["n ansible_host=i ansible_ssh_private_key_file=k"])] ∧
    get_inventory_str pBad (Option.some ["a"]) =
      Except.ok "[a=x]\n[y]\nn ansible_host=i ansible_ssh_private_key_file=k" ∧
    parseInventory "[a=x]\n[y]\nn ansible_host=i ansible_ssh_private_key_file=k" =
      [("a=x", []), ("y", ["n ansible_host=i ansible_ssh_private_key_file=k"])] ∧
    [("a=x", []), ("y", ["n ansible_host=i ansible_ssh_private_key_file=k"])] ≠
      ([("a=x]\n[y", ["n ansible_host=i ansible_ssh_private_key_file=k"])] : Inventory).map
        (fun gh => (gh.1, pySorted gh.2)) :=
  ⟨rfl, rfl, rfl, by decide⟩

/-- `List.intercalate` of a nonempty list of lists, in `flatMap` form. -/
lemma list_intercalate_cons (sep : List Char) :
    ∀ (ds : List (List Char)) (d : List Char),
      List.intercalate sep (d :: ds) = d ++ ds.flatMap (fun x => sep ++ x) := by
  intro ds
  induction ds with
  | nil => intro d; simp [List.intercalate]
  | cons e es ih =>
    intro d
    simp only [List.intercalate, List.intersperse, List.flatten_cons] at ih ⊢
    simp [ih, List.append_assoc]

/-- The characters of `String.intercalate.go`, accumulator included. -/
lemma intercalate_go_data (s : String) :
    ∀ (as : List String) (acc : String),
      (String.intercalate.go acc s as).data = acc.data ++ as.flatMap (fun a => s.data ++ a.data) := by
  intro as
  induction as with
  | nil => intro acc; simp [String.intercalate.go]
  | cons x xs ih =>
    intro acc
    rw [String.intercalate.go, ih]
    simp [List.append_assoc]

/-- The characters of `String.intercalate` are the `List.intercalate`
of the characters. -/
lemma intercalate_data (s : String) (L : List String) :
    (String.intercalate s L).data = List.intercalate s.data (L.map String.data) := by
  cases L with
  | nil => rfl
  | cons a as =>
    have hgo : String.intercalate s (a :: as) = String.intercalate.go a s as := rfl
    rw [hgo, intercalate_go_data, List.map_cons, list_intercalate_cons, List.flatMap_map]

/-- Splitting the characters back into strings is the identity. -/
lemma map_mk_data (L : List String) :
    (L.map String.data).map (fun cs => String.mk cs) = L := by
  induction L with
  | nil => rfl
  | cons a as ih => simp [ih, string_mk_data]

/-- The characters of a bracketed group header. -/
lemma bracket_data (g : String) : ("[" ++ g ++ "]").data = '[' :: (g.data ++ [']']) := by
  simp [String.data_append]

/-- A bracketed group header satisfies `isHeader`. -/
lemma isHeader_bracket (g : String) : isHeader ("[" ++ g ++ "]") = true := by
  have h1 : '[' :: (g.data ++ [']']) = ('[' :: g.data) ++ [']'] := by simp
  simp only [isHeader, bracket_data, Bool.and_eq_true, decide_eq_true_eq]
  refine ⟨⟨rfl, ?_⟩, ?_⟩
  · rw [h1, List.getLast?_concat]
  · simp

/-- `headerName` recovers the group from a bracketed header. -/
lemma headerName_bracket (g : String) : headerName ("[" ++ g ++ "]") = g := by
  simp [headerName, bracket_data, string_mk_data]

/-- Consecutive non-header lines accumulate as hosts of the open
group. -/
lemma parseLinesAux_hosts (hosts : List String) (hh : ∀ e ∈ hosts, isHeader e = false) :
    ∀ (rest : List String) (g : String) (acc : List String),
      parseLinesAux (hosts ++ rest) (Option.some (g, acc)) =
        parseLinesAux rest (Option.some (g, acc ++ hosts)) := by
  induction hosts with
  | nil => intro rest g acc; simp
  | cons e es ih =>
    intro rest g acc
    have he : isHeader e = false := hh e (List.Mem.head _)
    have hes : ∀ x ∈ es, isHeader x = false := fun x hx => hh x (List.Mem.tail _ hx)
    simp only [List.cons_append, parseLinesAux, he, Bool.false_eq_true, if_false,
      List.append_eq]
    rw [ih hes rest g (acc ++ [e])]
    simp [List.append_assoc]

/-- One group's rendered lines, split off the front of `renderLines`. -/
lemma renderLines_cons (gh : String × List String) (rest : Inventory) :
    renderLines (gh :: rest) = ("[" ++ gh.1 ++ "]") :: (pySorted gh.2 ++ renderLines rest) := by
  simp [renderLines, List.flatMap_cons]

/-- Parsing the rendered lines of an inventory recovers the groups in
order with their sorted host lists, with an open accumulator group. -/
lemma parseLinesAux_render (inv : Inventory)
    (hwf : ∀ gh ∈ inv, ∀ e ∈ gh.2, isHeader e = false) :
    ∀ (g : String) (acc : List String),
      parseLinesAux (renderLines inv) (Option.some (g, acc)) =
        (g, acc) :: inv.map (fun gh => (gh.1, pySorted gh.2)) := by
  induction inv with
  | nil => intro g acc; simp [renderLines, parseLinesAux]
  | cons gh rest ih =>
    intro g acc
    have hsorted : ∀ e ∈ pySorted gh.2, isHeader e = false := by
      intro e he
      exact hwf gh (List.Mem.head _) e ((List.perm_insertionSort pyStrLe gh.2).mem_iff.mp he)
    have hrest : ∀ gh' ∈ rest, ∀ e ∈ gh'.2, isHeader e = false :=
      fun gh' h' => hwf gh' (List.Mem.tail _ h')
    rw [renderLines_cons]
    simp only [parseLinesAux, isHeader_bracket, if_true, headerName_bracket]
    rw [parseLinesAux_hosts (pySorted gh.2) hsorted]
    simp only [List.nil_append]
    rw [ih hrest gh.1 (pySorted gh.2)]
    simp

/-- Parsing the rendered lines of an inventory from scratch. -/
lemma parseLinesAux_render_top (inv : Inventory)
    (hwf : ∀ gh ∈ inv, ∀ e ∈ gh.2, isHeader e = false) :
    parseLinesAux (renderLines inv) Option.none =
      inv.map (fun gh => (gh.1, pySorted gh.2)) := by
  cases inv with
  | nil => rfl
  | cons gh rest =>
    have hsorted : ∀ e ∈ pySorted gh.2, isHeader e = false := by
      intro e he
      exact hwf gh (List.Mem.head _) e ((List.perm_insertionSort pyStrLe gh.2).mem_iff.mp he)
    have hrest : ∀ gh' ∈ rest, ∀ e ∈ gh'.2, isHeader e = false :=
      fun gh' h' => hwf gh' (List.Mem.tail _ h')
    rw [renderLines_cons]
    simp only [parseLinesAux, isHeader_bracket, if_true, headerName_bracket]
    rw [parseLinesAux_hosts (pySorted gh.2) hsorted]
    simp only [List.nil_append]
    rw [parseLinesAux_render rest hrest gh.1 (pySorted gh.2)]
    simp

/-- C9 amended: `build` then `buildText` then re-parsing the INI text
recovers exactly the built groups in insertion order, each with its
host list sorted (a permutation of the original), provided no group
name or host entry contains a newline and no host entry itself looks
like a `[...]` header line. -/
theorem inventory_roundtrip (p : LagoPrefix) (keys : Option (List String)) (inv : Inventory)
    (s : String)
    (hinv : get_inventory p keys = Except.ok inv)
    (hs : get_inventory_str p keys = Except.ok s)
    (hwf : ∀ gh ∈ inv,
      ('\n' ∉ gh.1.data) ∧ ∀ e ∈ gh.2, ('\n' ∉ e.data) ∧ isHeader e = false) :
    parseInventory s = inv.map (fun gh => (gh.1, pySorted gh.2)) := by
  have hs2 := get_inventory_str_ok p keys inv hinv
  rw [hs] at hs2
  have hseq : s = String.intercalate "\n" (renderLines inv) := by
    simpa using hs2
  subst hseq
  cases inv with
  | nil => rfl
  | cons gh0 rest0 =>
    have hwfh : ∀ gh ∈ gh0 :: rest0, ∀ e ∈ gh.2, isHeader e = false :=
      fun gh h e he => ((hwf gh h).2 e he).2
    have hnl : ∀ l ∈ (renderLines (gh0 :: rest0)).map String.data, '\n' ∉ l := by
      intro l hl
      obtain ⟨l0, hl0, rfl⟩ := List.mem_map.mp hl
      obtain ⟨gh', hgh', hmem⟩ := List.mem_flatMap.mp hl0
      cases hmem with
      | head =>
        rw [bracket_data]
        intro hcon
        cases hcon with
        | tail _ htl =>
          rcases List.mem_append.mp htl with hin | hin
          · exact (hwf gh' hgh').1 hin
          · simp at hin
      | tail _ htl =>
        exact ((hwf gh' hgh').2 l0
          ((List.perm_insertionSort pyStrLe gh'.2).mem_iff.mp htl)).1
    have hne : (renderLines (gh0 :: rest0)).map String.data ≠ [] := by
      rw [renderLines_cons]
      simp
    have hdata : (String.intercalate "\n" (renderLines (gh0 :: rest0))).data =
        List.intercalate ['\n'] ((renderLines (gh0 :: rest0)).map String.data) := by
      rw [intercalate_data]
    simp only [parseInventory, hdata]
    rw [show List.intercalate ['\n'] ((renderLines (gh0 :: rest0)).map String.data) =
        ['\n'].intercalate ((renderLines (gh0 :: rest0)).map String.data) from rfl]
    rw [List.splitOn_intercalate _ '\n' hnl hne]
    rw [map_mk_data]
    exact parseLinesAux_render_top (gh0 :: rest0) hwfh

/-- Witness for `inventory_roundtrip` at the two-VM prefix. -/
theorem inventory_roundtrip_witness :
    parseInventory "[vm-type=x]\nvm1 ansible_host=1.1.1.1 ansible_ssh_private_key_file=id\nvm2 ansible_host=1.1.1.2 ansible_ssh_private_key_file=id\n[vm-type=y]\nvm2 ansible_host=1.1.1.2 ansible_ssh_private_key_file=id" =
      ([("vm-type=x",
          ["vm1 ansible_host=1.1.1.1 ansible_ssh_private_key_file=id",
           "vm2 ansible_host=1.1.1.2 ansible_ssh_private_key_file=id"]),
        ("vm-type=y",
          ["vm2 ansible_host=1.1.1.2 ansible_ssh_private_key_file=id"])] : Inventory).map
        (fun gh => (gh.1, pySorted gh.2)) :=
  inventory_roundtrip pEx (Option.some ["vm-type"])
    [("vm-type=x",
       ["vm1 ansible_host=1.1.1.1 ansible_ssh_private_key_file=id",
        "vm2 ansible_host=1.1.1.2 ansible_ssh_private_key_file=id"]),
     ("vm-type=y",
       ["vm2 ansible_host=1.1.1.2 ansible_ssh_private_key_file=id"])]
    "[vm-type=x]\nvm1 ansible_host=1.1.1.1 ansible_ssh_private_key_file=id\nvm2 ansible_host=1.1.1.2 ansible_ssh_private_key_file=id\n[vm-type=y]\nvm2 ansible_host=1.1.1.2 ansible_ssh_private_key_file=id"
    rfl rfl (by decide)
